import Mathlib

/-!
Shallow embedding of the trade-accounting core of the `portfolio` repository
(`src/trade.py`, `src/statistics.py`).

Python floats are modelled as exact rationals (`ℚ`).  Python exceptions
(failed `assert`s, the `TypeError` raised when `Position.close`/`cover`
tuple-unpacks the `None` returned by `Inventory._exit` on an empty lot) are
modelled explicitly: every mutating operation returns an
`Except TErr Unit × <state>` pair whose second component is the state at the
moment the exception is raised, so partial mutation before an exception is
observable, exactly as in Python.

`math.isclose` is modelled with its Python default parameters
(`rel_tol = 1e-9`, `abs_tol = 0.0`), which is what every call site in
`trade.py` uses.  The module-level constant `PRECISION = 1e-6` exists in the
source but is referenced only by the helper predicates `enough_amount` and
`enough_cash`, which no code path of the module calls.
-/

/-- Error kinds raised by the Python code: `assertionError` for a failed
`assert` statement, `typeError` for tuple-unpacking `None`. -/
inductive TErr where
  | assertionError : TErr
  | typeError : TErr
deriving DecidableEq, Repr

/-- Source: `PRECISION = 1e-6` from `trade.py` (used only by `enough_amount` /
`enough_cash`). -/
def PRECISION : ℚ := 1 / 1000000

/-- Python `math.isclose` default relative tolerance `1e-9`. -/
def rel_tol : ℚ := 1 / 1000000000

/-- Python `math.isclose` default absolute tolerance `0.0`. -/
def abs_tol : ℚ := 0

/-- Python `math.isclose(a, b)` with default parameters:
`|a - b| <= max(rel_tol * max(|a|, |b|), abs_tol)`. -/
def isclose (a b : ℚ) : Prop := |a - b| ≤ max (rel_tol * max |a| |b|) abs_tol

instance (a b : ℚ) : Decidable (isclose a b) := by
  unfold isclose; infer_instance

/-- Source: `TradePercentage` commission scheme from `trade.py` (the `Commission`
subclass the module instantiates; `Position` defaults to
`TradePercentage(0.001)`). -/
structure TradePercentage where
  percentage : ℚ
deriving DecidableEq, Repr

/-- Source: `TradePercentage.calculate(price, amount) = price * abs(amount) * percentage`. -/
def TradePercentage.calculate (c : TradePercentage) (price amount : ℚ) : ℚ :=
  price * |amount| * c.percentage

/-- Source: `Inventory`: `inventory` is the Python list of `(amount, price)` pairs
(the code only ever uses index 0), `islong` the direction flag. -/
structure Inventory where
  inventory : List (ℚ × ℚ)
  islong : Bool
deriving DecidableEq, Repr

/-- The pydantic default `Inventory()`: empty list, `islong = True`. -/
def Inventory.default : Inventory := ⟨[], true⟩

/-- Source: `go_short`: `assert len(self.inventory) == 0` then `islong = False`. -/
def Inventory.go_short (inv : Inventory) : Except TErr Unit × Inventory :=
  if inv.inventory.length = 0 then (.ok (), { inv with islong := false })
  else (.error .assertionError, inv)

/-- Source: `go_long`: `assert len(self.inventory) == 0` then `islong = True`. -/
def Inventory.go_long (inv : Inventory) : Except TErr Unit × Inventory :=
  if inv.inventory.length = 0 then (.ok (), { inv with islong := true })
  else (.error .assertionError, inv)

/-- Source: `get_amount`: signed amount, `0` when empty. -/
def Inventory.get_amount (inv : Inventory) : ℚ :=
  match inv.inventory with
  | (a, _) :: _ => (if inv.islong then 1 else -1) * a
  | [] => 0

/-- Source: `get_price`: average price of the lot, `0` when empty. -/
def Inventory.get_price (inv : Inventory) : ℚ :=
  match inv.inventory with
  | (_, p) :: _ => p
  | [] => 0

/-- Source: `Inventory._entry(amount, price)`: asserts `amount > 0` and `price > 0`;
opens a lot when empty, otherwise recomputes the size-weighted average price
in place at index 0; returns `amount * price`. -/
def Inventory.entryQ (inv : Inventory) (amount price : ℚ) :
    Except TErr ℚ × Inventory :=
  if 0 < amount ∧ 0 < price then
    match inv.inventory with
    | [] => (.ok (amount * price), { inv with inventory := [(amount, price)] })
    | (a0, p0) :: rest =>
        let new_amount := a0 + amount
        let new_avg_price := (a0 * p0 + amount * price) / new_amount
        (.ok (amount * price), { inv with inventory := (new_amount, new_avg_price) :: rest })
  else (.error .assertionError, inv)

/-- The 4-tuple returned by `Inventory._exit`:
`(realized_profit_pt, realized_profit_pct, avg_price, amount * price)`. -/
structure ExitRes where
  realized_profit_pt : ℚ
  realized_profit_pct : ℚ
  avg_price : ℚ
  notional : ℚ
deriving DecidableEq, Repr

/-- Source: `Inventory._exit(amount, price)`: asserts `amount > 0` and `price > 0`;
when the lot is non-empty computes the realized-profit tuple, empties the lot
if `math.isclose(inventory_amount, amount)`, otherwise replaces index 0 by
`(inventory_amount - amount, avg_price)` (no check that `amount` does not
exceed the held size); when the lot is empty it falls through and returns
Python `None` (`Except.ok none`). -/
def Inventory.exitQ (inv : Inventory) (amount price : ℚ) :
    Except TErr (Option ExitRes) × Inventory :=
  if 0 < amount ∧ 0 < price then
    match inv.inventory with
    | [] => (.ok none, inv)
    | _ :: rest =>
        let inventory_amount := |inv.get_amount|
        let avg_price := inv.get_price
        let realized_profit_pct :=
          if inv.islong then (price - avg_price) / avg_price * 100
          else (avg_price - price) / avg_price * 100
        let realized_profit_pt := amount * realized_profit_pct / 100
        if isclose inventory_amount amount then
          (.ok (some ⟨realized_profit_pt, realized_profit_pct, avg_price, amount * price⟩),
           { inv with inventory := [] })
        else
          (.ok (some ⟨realized_profit_pt, realized_profit_pct, avg_price, amount * price⟩),
           { inv with inventory := (inventory_amount - amount, avg_price) :: rest })
  else (.error .assertionError, inv)

/-- Source: `Inventory.long`: `assert self.islong` then `_entry(abs(amount), price)`. -/
def Inventory.long (inv : Inventory) (amount price : ℚ) : Except TErr ℚ × Inventory :=
  if inv.islong then inv.entryQ |amount| price else (.error .assertionError, inv)

/-- Source: `Inventory.close`: `assert self.islong` then `_exit(abs(amount), price)`. -/
def Inventory.close (inv : Inventory) (amount price : ℚ) :
    Except TErr (Option ExitRes) × Inventory :=
  if inv.islong then inv.exitQ |amount| price else (.error .assertionError, inv)

/-- Source: `Inventory.short`: `assert not self.islong` then `_entry(abs(amount), price)`. -/
def Inventory.short (inv : Inventory) (amount price : ℚ) : Except TErr ℚ × Inventory :=
  if inv.islong then (.error .assertionError, inv) else inv.entryQ |amount| price

/-- Source: `Inventory.cover`: `assert not self.islong` then `_exit(abs(amount), price)`. -/
def Inventory.cover (inv : Inventory) (amount price : ℚ) :
    Except TErr (Option ExitRes) × Inventory :=
  if inv.islong then (.error .assertionError, inv) else inv.exitQ |amount| price

/-- Source: `enough_amount` from `Position` (defined in the source, never called by
the module itself): `abs(amount) <= abs(self.get_amount()) + PRECISION`. -/
def enough_amountQ (held amount : ℚ) : Prop := |amount| ≤ |held| + PRECISION

/-- Source: `enough_cash` from `Position` (defined in the source, never called by the
module itself): `cash <= self.fund + PRECISION`. -/
def enough_cashQ (fund cash : ℚ) : Prop := cash ≤ fund + PRECISION

/-- Trade tag written to `trade_log` / `trade_profit`. -/
inductive TradeKind where
  | LONG | SHORT | CLOSE | COVER
deriving DecidableEq, Repr

/-- One `trade_log` dict:
`{timestamp, amount, fee, price, trade, notes}`. -/
structure TradeLogEntry where
  timestamp : Option ℤ
  amount : ℚ
  fee : ℚ
  price : ℚ
  trade : TradeKind
  notes : String
deriving DecidableEq, Repr

/-- One `trade_profit` dict: `{timestamp, amount, exit_price, enter_price,
realized_profit, realized_profit_pt, realized_profit_pct, trade}`. -/
structure TradeProfitEntry where
  timestamp : Option ℤ
  amount : ℚ
  exit_price : ℚ
  enter_price : ℚ
  realized_profit : ℚ
  realized_profit_pt : ℚ
  realized_profit_pct : ℚ
  trade : TradeKind
deriving DecidableEq, Repr

/-- One `balance_log` dict built by `end_date` (the `summary()` dict plus
timestamp, price, gav, nav, exposure). -/
structure BalanceEntry where
  fund : ℚ
  amount : ℚ
  strategy_exposure : ℚ
  fee : ℚ
  base_rate : ℚ
  timestamp : Option ℤ
  price : ℚ
  gav : ℚ
  nav : ℚ
  exposure : ℚ
deriving DecidableEq, Repr

/-- Source: `Position` from `trade.py` with its pydantic field defaults.  The
commission field is the concrete `TradePercentage` scheme the module
instantiates (default `TradePercentage(0.001)`). -/
structure Position where
  strategy_exposure : ℚ := 0
  base_rate : ℚ := 1
  fund : ℚ := 0
  fee : ℚ := 0
  leverage : ℚ := 1
  inv : Inventory := Inventory.default
  commision : TradePercentage := ⟨1 / 1000⟩
  trade_log : List TradeLogEntry := []
  trade_profit : List TradeProfitEntry := []
  balance_log : List BalanceEntry := []
  timestamp_log : List (Option ℤ) := []
deriving DecidableEq, Repr

/-- Source: `Position.cal_nav(cash, amount, price) = cash + amount * price`. -/
def Position.cal_nav (cash amount price : ℚ) : ℚ := cash + amount * price

/-- Source: `Position.cal_exposure`: `0` if `amount == 0` or `nav <= 0`, else
`1 - cash / nav`. -/
def Position.cal_exposure (cash amount price : ℚ) : ℚ :=
  if amount = 0 then 0
  else
    let nav := Position.cal_nav cash amount price
    if nav ≤ 0 then 0 else 1 - cash / nav

/-- Source: `Position.get_amount`. -/
def Position.get_amount (p : Position) : ℚ := p.inv.get_amount

/-- Source: `Position.get_gav(price) = cal_nav(fund, amount, price)`. -/
def Position.get_gav (p : Position) (price : ℚ) : ℚ :=
  Position.cal_nav p.fund p.get_amount price

/-- Source: `Position.get_nav(price) = get_gav(price) - fee`. -/
def Position.get_nav (p : Position) (price : ℚ) : ℚ := p.get_gav price - p.fee

/-- Source: `Position.long`: switch the inventory long when flat, enter
`abs(amount)`, pay `fund -= abs(cash_changed)`, accrue fee, append a `LONG`
trade-log entry.  An exception inside the inventory propagates, leaving the
state as mutated so far. -/
def Position.long (p : Position) (amount price : ℚ) (timestamp : Option ℤ)
    (notes : String) : Except TErr Unit × Position :=
  match (if p.inv.get_amount = 0 then p.inv.go_long else (.ok (), p.inv)) with
  | (.error e, inv1) => (.error e, { p with inv := inv1 })
  | (.ok _, inv1) =>
    let amount := |amount|
    match inv1.long amount price with
    | (.error e, inv2) => (.error e, { p with inv := inv2 })
    | (.ok cash_changed, inv2) =>
      let fee_to_pay := p.commision.calculate price amount
      (.ok (), { p with
        inv := inv2,
        fund := p.fund + -1 * abs cash_changed,
        fee := p.fee + fee_to_pay,
        trade_log := p.trade_log ++
          [⟨timestamp, amount, fee_to_pay, price, TradeKind.LONG, notes⟩] })

/-- Source: `Position.short`: switch the inventory short when flat, enter
`abs(amount)`, receive `fund += abs(cash_changed)`, accrue fee, append a
`SHORT` trade-log entry with amount `-amount`. -/
def Position.short (p : Position) (amount price : ℚ) (timestamp : Option ℤ)
    (notes : String) : Except TErr Unit × Position :=
  match (if p.inv.get_amount = 0 then p.inv.go_short else (.ok (), p.inv)) with
  | (.error e, inv1) => (.error e, { p with inv := inv1 })
  | (.ok _, inv1) =>
    let amount := |amount|
    match inv1.short amount price with
    | (.error e, inv2) => (.error e, { p with inv := inv2 })
    | (.ok cash_changed, inv2) =>
      let cash_changed := |cash_changed|
      let fee_to_pay := p.commision.calculate price amount
      (.ok (), { p with
        inv := inv2,
        fund := p.fund + cash_changed,
        fee := p.fee + fee_to_pay,
        trade_log := p.trade_log ++
          [⟨timestamp, -amount, fee_to_pay, price, TradeKind.SHORT, notes⟩] })

/-- Source: `Position.close`: exits `abs(amount)` from a long inventory, receives
the notional, accrues fee, appends a `CLOSE` trade-log entry and a `LONG`
trade-profit entry.  When `Inventory.close` returns Python `None` (empty
lot) the tuple unpacking raises `TypeError`. -/
def Position.close (p : Position) (amount price : ℚ) (timestamp : Option ℤ)
    (notes : String) : Except TErr Unit × Position :=
  let amount := |amount|
  match p.inv.close amount price with
  | (.error e, inv2) => (.error e, { p with inv := inv2 })
  | (.ok none, inv2) => (.error .typeError, { p with inv := inv2 })
  | (.ok (some r), inv2) =>
    let realized_profit := r.realized_profit_pt * p.base_rate * price
    let fee_to_pay := p.commision.calculate price amount
    let cash_changed := abs r.notional
    (.ok (), { p with
      inv := inv2,
      fund := p.fund + cash_changed,
      fee := p.fee + fee_to_pay,
      trade_log := p.trade_log ++
        [⟨timestamp, -(abs amount), fee_to_pay, price, TradeKind.CLOSE, notes⟩],
      trade_profit := p.trade_profit ++
        [⟨timestamp, abs amount, price, r.avg_price, realized_profit,
          r.realized_profit_pt, r.realized_profit_pct, TradeKind.LONG⟩] })

/-- Source: `Position.cover`: exits `abs(amount)` from a short inventory, pays the
notional (`fund += -abs(cash_changed)`), accrues fee, appends a `COVER`
trade-log entry and a `SHORT` trade-profit entry. -/
def Position.cover (p : Position) (amount price : ℚ) (timestamp : Option ℤ)
    (notes : String) : Except TErr Unit × Position :=
  let amount := |amount|
  match p.inv.cover amount price with
  | (.error e, inv2) => (.error e, { p with inv := inv2 })
  | (.ok none, inv2) => (.error .typeError, { p with inv := inv2 })
  | (.ok (some r), inv2) =>
    let realized_profit := r.realized_profit_pt * p.base_rate * price
    let fee_to_pay := p.commision.calculate price amount
    let cash_changed := -1 * abs r.notional
    (.ok (), { p with
      inv := inv2,
      fund := p.fund + cash_changed,
      fee := p.fee + fee_to_pay,
      trade_log := p.trade_log ++
        [⟨timestamp, abs amount, fee_to_pay, price, TradeKind.COVER, notes⟩],
      trade_profit := p.trade_profit ++
        [⟨timestamp, -(abs amount), price, r.avg_price, realized_profit,
          r.realized_profit_pt, r.realized_profit_pct, TradeKind.SHORT⟩] })

/-- Source: `Position.update_base_rate`. -/
def Position.update_base_rate (p : Position) (rate : ℚ) : Position :=
  { p with base_rate := rate }

/-- Source: `Position.extract_fund`: returns the fund and zeroes it. -/
def Position.extract_fund (p : Position) : ℚ × Position :=
  (p.fund, { p with fund := 0 })

/-- Source: `Position.deposit_fund`. -/
def Position.deposit_fund (p : Position) (fund : ℚ) : Position :=
  { p with fund := fund }

/-- Source: `Position.summary()`: the dict
`{fund, amount, strategy_exposure, fee, base_rate}` (read-only). -/
def Position.summary (p : Position) : ℚ × ℚ × ℚ × ℚ × ℚ :=
  (p.fund, p.get_amount, p.strategy_exposure, p.fee, p.base_rate)

/-- Source: `Position.end_date(timestamp, price)`: appends the summary dict extended
with timestamp, price, gav, nav and the freshly computed exposure to
`balance_log`, and the timestamp to `timestamp_log`. -/
def Position.end_date (p : Position) (timestamp : Option ℤ) (price : ℚ) :
    Position :=
  { p with
    balance_log := p.balance_log ++
      [⟨p.fund, p.get_amount, p.strategy_exposure, p.fee, p.base_rate,
        timestamp, price, p.get_gav price, p.get_nav price,
        Position.cal_exposure p.fund p.get_amount price⟩],
    timestamp_log := p.timestamp_log ++ [timestamp] }

/-- The case dispatch of `Position.allocate` (the body that runs after the
`math.isclose(old_exposure, new_exposure)` early return): computes
`old_exposure`, `amount`, `exposure` and `nav` from the current state and
executes the leg(s) of the matching transition case. -/
def Position.allocateCore (p : Position) (new_exposure price : ℚ)
    (timestamp : Option ℤ) (notes : String) : Except TErr Unit × Position :=
  let old_exposure := p.strategy_exposure
  let amount := p.inv.get_amount
  let exposure := Position.cal_exposure p.fund amount price
  let nav := Position.cal_nav p.fund amount price
  if 0 < old_exposure then
        if isclose new_exposure 0 then
          p.close amount price timestamp notes
        else if 0 < new_exposure ∧ old_exposure < new_exposure then
          p.long (nav * (new_exposure - exposure) / price) price timestamp notes
        else if 0 < new_exposure ∧ new_exposure < old_exposure then
          p.close (nav * (new_exposure - exposure) / price) price timestamp notes
        else if new_exposure < 0 then
          match p.close amount price timestamp notes with
          | (.error e, p1) => (.error e, p1)
          | (.ok _, p1) =>
              p1.short (nav * new_exposure / price) price timestamp notes
        else (.ok (), p)
      else if isclose old_exposure 0 then
        if 0 < new_exposure then
          p.long (nav * new_exposure / price) price timestamp notes
        else if new_exposure < 0 then
          p.short (nav * new_exposure / price) price timestamp notes
        else (.ok (), p)
      else if old_exposure < 0 then
        if isclose new_exposure 0 then
          p.cover amount price timestamp notes
        else if new_exposure < 0 ∧ old_exposure < new_exposure then
          p.cover (nav * (exposure - new_exposure) / price) price timestamp notes
        else if new_exposure < 0 ∧ new_exposure < old_exposure then
          p.short (nav * (exposure - new_exposure) / price) price timestamp notes
        else if 0 < new_exposure then
          match p.cover amount price timestamp notes with
          | (.error e, p1) => (.error e, p1)
          | (.ok _, p1) =>
              p1.long (nav * new_exposure / price) price timestamp notes
        else (.ok (), p)
  else (.ok (), p)

/-- Source: `Position.allocate(new_exposure, price)`: the ten-case exposure
state machine.  Mirrors the Python control flow: early return when
`math.isclose(old_exposure, new_exposure)`; otherwise run the dispatch
(`allocateCore`); `strategy_exposure` is set to `new_exposure` only after
the executed leg(s) return without raising (an exception propagates with
the state as mutated so far and the old `strategy_exposure`). -/
def Position.allocate (p : Position) (new_exposure price : ℚ)
    (timestamp : Option ℤ) (notes : String) : Except TErr Unit × Position :=
  if isclose p.strategy_exposure new_exposure then (.ok (), p)
  else
    match p.allocateCore new_exposure price timestamp notes with
    | (.error e, p1) => (.error e, p1)
    | (.ok _, p1) => (.ok (), { p1 with strategy_exposure := new_exposure })

/-- Source: `drawdowns` helper: tail of `np.maximum.accumulate` given the running
maximum so far. -/
def runningMaxAux (m : ℚ) : List ℚ → List ℚ
  | [] => []
  | x :: xs => max m x :: runningMaxAux (max m x) xs

/-- Source: `np.maximum.accumulate` over the series. -/
def runningMax : List ℚ → List ℚ
  | [] => []
  | x :: xs => x :: runningMaxAux x xs

/-- Source: `np.max` over a non-empty series (`0` on the empty list, which numpy
rejects). -/
def maxList : List ℚ → ℚ
  | [] => 0
  | x :: xs => xs.foldl max x

/-- Source: `drawdowns(ser) = 1 - vec / np.maximum.accumulate(vec)` from
`statistics.py`. -/
def drawdowns (ser : List ℚ) : List ℚ :=
  List.zipWith (fun v m => 1 - v / m) ser (runningMax ser)

/-- Source: `max_drawdown(ser) = np.max(drawdowns(ser))`. -/
def max_drawdown (ser : List ℚ) : ℚ := maxList (drawdowns ser)

/-! ### Helper lemmas about the tolerance model -/

theorem isclose_self (a : ℚ) : isclose a a := by
  unfold isclose abs_tol
  simp

theorem isclose_zero_iff (a : ℚ) : isclose a 0 ↔ a = 0 := by
  unfold isclose rel_tol abs_tol
  constructor
  · intro h
    simp only [sub_zero, abs_zero, max_self] at h
    have h2 : max ((1 / 1000000000) * max |a| 0) 0 = (1 / 1000000000) * |a| := by
      rw [max_eq_left (abs_nonneg a), max_eq_left (by positivity)]
    rw [h2] at h
    have h3 : (0:ℚ) ≤ |a| := abs_nonneg a
    have h4 : |a| = 0 := by linarith
    exact abs_eq_zero.mp h4
  · rintro rfl
    simp

theorem not_isclose_of_pos_neg (a b : ℚ) (ha : 0 < a) (hb : b < 0) :
    ¬ isclose a b := by
  unfold isclose rel_tol abs_tol
  intro h
  have hM : max |a| |b| ≤ a - b := by
    rw [abs_of_pos ha, abs_of_neg hb]
    exact max_le (by linarith) (by linarith)
  have hab : |a - b| = a - b := abs_of_pos (by linarith)
  rw [hab] at h
  have h2 : (1 / 1000000000 : ℚ) * max |a| |b| ≤ (1 / 1000000000) * (a - b) :=
    mul_le_mul_of_nonneg_left hM (by norm_num)
  have h3 : max ((1 / 1000000000 : ℚ) * max |a| |b|) 0 ≤ (1 / 1000000000) * (a - b) := by
    apply max_le h2
    have : (0:ℚ) < a - b := by linarith
    positivity
  linarith

/-! ### C5 -/

/-- C5: starting from an empty Inventory, `_entry(a1, p1)` then
`_entry(a2, p2)` (with positive amounts and prices) yields a single lot of
size `a1 + a2` whose average price is `(a1*p1 + a2*p2) / (a1 + a2)` exactly
(hence within any floating tolerance), and each call returns its own
`amount * price`. -/
theorem entry_twice_weighted_avg (a1 p1 a2 p2 : ℚ)
    (h1 : 0 < a1) (h2 : 0 < p1) (h3 : 0 < a2) (h4 : 0 < p2) :
    (Inventory.default.entryQ a1 p1).1 = .ok (a1 * p1) ∧
    ((Inventory.default.entryQ a1 p1).2.entryQ a2 p2).1 = .ok (a2 * p2) ∧
    ((Inventory.default.entryQ a1 p1).2.entryQ a2 p2).2 =
      ⟨[(a1 + a2, (a1 * p1 + a2 * p2) / (a1 + a2))], true⟩ := by
  have e1 : Inventory.default.entryQ a1 p1 =
      (.ok (a1 * p1), ⟨[(a1, p1)], true⟩) := by
    unfold Inventory.default Inventory.entryQ
    rw [if_pos ⟨h1, h2⟩]
  have e2 : (Inventory.mk [(a1, p1)] true).entryQ a2 p2 =
      (.ok (a2 * p2), ⟨[(a1 + a2, (a1 * p1 + a2 * p2) / (a1 + a2))], true⟩) := by
    unfold Inventory.entryQ
    rw [if_pos ⟨h3, h4⟩]
  rw [e1, e2]
  exact ⟨rfl, rfl, rfl⟩

/-- Witness for C5 at the spec's own example `(10, 100)` then `(5, 110)`:
the lot becomes `(15, 310/3)` (i.e. average price `103.33…`). -/
theorem entry_twice_weighted_avg_witness :
    ((Inventory.default.entryQ 10 100).2.entryQ 5 110).2 =
      ⟨[(15, 310 / 3)], true⟩ := by
  have h := (entry_twice_weighted_avg 10 100 5 110 (by norm_num) (by norm_num)
    (by norm_num) (by norm_num)).2.2
  rw [h]
  norm_num

/-! ### C2 -/

/-- C2 counterexample: on the lot `(1, 100)` (long), `_exit(2, 100)` — an
exit amount exceeding the held size by `1`, far beyond any tolerance — does
NOT fail: it returns the realized-profit tuple and rewrites the lot to the
negative size `(-1, 100)`.  The source raises no `InsufficientInventoryError`
(no such class exists in `trade.py`) and performs no size check at all. -/
theorem exit_excess_no_failure :
    (Inventory.mk [(1, 100)] true).exitQ 2 100 =
      (.ok (some ⟨0, 0, 100, 200⟩), ⟨[(-1, 100)], true⟩) ∧
    ((Inventory.mk [(1, 100)] true).exitQ 2 100).2 ≠ Inventory.mk [(1, 100)] true := by
  have h : (Inventory.mk [(1, 100)] true).exitQ 2 100 =
      (.ok (some ⟨0, 0, 100, 200⟩), ⟨[(-1, 100)], true⟩) := by
    norm_num [Inventory.exitQ, Inventory.get_amount, Inventory.get_price,
      isclose, rel_tol, abs_tol]
  refine ⟨h, ?_⟩
  rw [h]
  intro hc
  have h2 := congrArg Inventory.inventory hc
  simp at h2
  exact absurd h2 (by norm_num)

/-- C2 amended: for positive `amount` and `price`, `_exit` on an empty lot
returns Python `None` (no exception, no result tuple) with the lot
unchanged; and when `amount` exceeds the held size beyond the tolerance the
code actually applies — `math.isclose` with relative tolerance `1e-9`, not
an absolute `1e-6` — no error is raised: `_exit` returns the realized-profit
tuple and the lot becomes `(held - amount, avg_price)` with negative size. -/
theorem exitQ_no_insufficiency_check (amount price : ℚ)
    (ha : 0 < amount) (hp : 0 < price) :
    (∀ b : Bool, (Inventory.mk [] b).exitQ amount price =
      (.ok none, Inventory.mk [] b)) ∧
    (∀ sz ap : ℚ, 0 < sz → sz < amount → ¬ isclose sz amount →
      (Inventory.mk [(sz, ap)] true).exitQ amount price =
        (.ok (some ⟨amount * ((price - ap) / ap * 100) / 100,
                    (price - ap) / ap * 100, ap, amount * price⟩),
         Inventory.mk [(sz - amount, ap)] true)) := by
  constructor
  · intro b
    unfold Inventory.exitQ
    rw [if_pos ⟨ha, hp⟩]
  · intro sz ap hsz hlt hnc
    unfold Inventory.exitQ
    rw [if_pos ⟨ha, hp⟩]
    have hamt : |Inventory.get_amount ⟨[(sz, ap)], true⟩| = sz := by
      unfold Inventory.get_amount
      simp [abs_of_pos hsz]
    simp only [hamt]
    rw [if_neg hnc]
    simp [Inventory.get_price]

/-- Witness for C2 amended at `amount = 2`, `price = 100`, lot `(1, 100)`:
the empty-lot call returns `None`, and the oversize exit leaves the lot at
size `-1`. -/
theorem exitQ_no_insufficiency_check_witness :
    (Inventory.mk [] true).exitQ 2 100 = (.ok none, Inventory.mk [] true) ∧
    ((Inventory.mk [(1, 100)] true).exitQ 2 100).2 =
      Inventory.mk [(-1, 100)] true := by
  constructor
  · exact (exitQ_no_insufficiency_check 2 100 (by norm_num) (by norm_num)).1 true
  · have h := (exitQ_no_insufficiency_check 2 100 (by norm_num) (by norm_num)).2
      1 100 (by norm_num) (by norm_num)
      (by norm_num [isclose, rel_tol, abs_tol])
    rw [h]
    norm_num

/-! ### C4 -/

/-- C4 counterexample: from a flat Position with fund 10000
(`strategy_exposure = 0`), `allocate(1e-7, price=100)` has
`|old - new| = 1e-7 ≤ 1e-6`, yet it is NOT a no-op: the code's no-op test is
`math.isclose` with relative tolerance `1e-9` (absolute tolerance `0`), which
rejects the pair, so a long trade executes and `fund` changes. -/
theorem allocate_abs_tolerance_counterexample :
    |({ fund := 10000 } : Position).strategy_exposure - 1 / 10000000| ≤ PRECISION ∧
    ((({ fund := 10000 } : Position).allocate (1 / 10000000) 100 none "").2.fund ≠
      ({ fund := 10000 } : Position).fund) ∧
    ((({ fund := 10000 } : Position).allocate (1 / 10000000) 100 none "").2.trade_log ≠
      ({ fund := 10000 } : Position).trade_log) := by
  refine ⟨?_, ?_, ?_⟩
  · rw [show ({ fund := 10000 } : Position).strategy_exposure = 0 from rfl,
      zero_sub, abs_neg, abs_of_pos (by norm_num : (0:ℚ) < 1 / 10000000)]
    norm_num [PRECISION]
  all_goals
    norm_num [Position.allocate, Position.allocateCore, Position.long,
      Position.cal_exposure, Position.cal_nav, Inventory.get_amount,
      Inventory.go_long, Inventory.long, Inventory.entryQ, Inventory.default,
      TradePercentage.calculate, isclose, rel_tol, abs_tol]

theorem allocate_noop_of_isclose (p : Position) (new_exposure price : ℚ)
    (ts : Option ℤ) (notes : String)
    (h : isclose p.strategy_exposure new_exposure) :
    p.allocate new_exposure price ts notes = (.ok (), p) := by
  unfold Position.allocate
  simp only [h, if_pos]

/-- C4 amended: `allocate` is a no-op — returning with fund, fee, inventory,
`strategy_exposure` and all logs unchanged — exactly when
`math.isclose(old_exposure, new_exposure)` holds with Python's default
relative tolerance `1e-9` (absolute tolerance `0`), i.e.
`|old - new| ≤ 1e-9 * max(|old|, |new|)`, not the absolute `1e-6` of
`PRECISION`. -/
theorem allocate_isclose_noop (p : Position) (new_exposure price : ℚ)
    (ts : Option ℤ) (notes : String)
    (h : isclose p.strategy_exposure new_exposure) :
    p.allocate new_exposure price ts notes = (.ok (), p) :=
  allocate_noop_of_isclose p new_exposure price ts notes h

/-- Witness for C4 amended: a flat default-fund Position re-allocated to its
current exposure `0` is untouched. -/
theorem allocate_isclose_noop_witness :
    ({ fund := 10000 } : Position).allocate 0 5 none "" =
      (.ok (), ({ fund := 10000 } : Position)) :=
  allocate_isclose_noop _ 0 5 none "" (isclose_self 0)

/-! ### C1 -/

/-- C1: from fund 10000, zero fee, empty inventory and flat strategy
exposure, `allocate(0.5, price=100)` computes exposure 0 and nav 10000,
executes exactly one trade `long(50, 100)` (the single LONG trade-log entry
of amount `50 = 10000 * 0.5 / 100` at price 100), after which
`fund = 5000`, `fee = commission(100, 50)`, the inventory holds a long lot
of size 50 at average price 100, and `strategy_exposure = 0.5`. -/
theorem allocate_flat_example :
    ((({ fund := 10000 } : Position).allocate (1 / 2) 100 none "").1 = .ok ()) ∧
    ((({ fund := 10000 } : Position).allocate (1 / 2) 100 none "").2.fund = 5000) ∧
    ((({ fund := 10000 } : Position).allocate (1 / 2) 100 none "").2.fee =
      TradePercentage.calculate ⟨1 / 1000⟩ 100 50) ∧
    ((({ fund := 10000 } : Position).allocate (1 / 2) 100 none "").2.inv =
      ⟨[(50, 100)], true⟩) ∧
    ((({ fund := 10000 } : Position).allocate (1 / 2) 100 none "").2.strategy_exposure =
      1 / 2) ∧
    ((({ fund := 10000 } : Position).allocate (1 / 2) 100 none "").2.trade_log =
      [⟨none, 50, 5, 100, TradeKind.LONG, ""⟩]) := by
  refine ⟨?_, ?_, ?_, ?_, ?_, ?_⟩ <;>
    norm_num [Position.allocate, Position.allocateCore, Position.long,
      Position.cal_exposure, Position.cal_nav, Inventory.get_amount,
      Inventory.go_long, Inventory.long, Inventory.entryQ, Inventory.default,
      TradePercentage.calculate, isclose, rel_tol, abs_tol]

/-! ### C8 -/

theorem runningMaxAux_zip_get (xs : List ℚ) :
    ∀ (m : ℚ) (t : ℕ), t < xs.length →
      (List.zipWith (fun v mx => 1 - v / mx) xs (runningMaxAux m xs)).get? t =
        some (1 - xs.getD t 0 / (xs.take (t + 1)).foldl max m) := by
  induction xs with
  | nil => intro m t ht; simp at ht
  | cons y ys ih =>
    intro m t ht
    cases t with
    | zero => simp [runningMaxAux]
    | succ s =>
      have hs : s < ys.length := by simpa using ht
      simpa [runningMaxAux] using ih (max m y) s hs

theorem runningMaxAux_of_le (xs : List ℚ) :
    ∀ m : ℚ, (∀ y ∈ xs, m ≤ y) → xs.Pairwise (· ≤ ·) → runningMaxAux m xs = xs := by
  induction xs with
  | nil => intro m _ _; rfl
  | cons y ys ih =>
    intro m hm hp
    have h1 : max m y = y := max_eq_right (hm y (by simp))
    have h2 : ∀ z ∈ ys, y ≤ z := (List.pairwise_cons.mp hp).1
    have h3 : ys.Pairwise (· ≤ ·) := (List.pairwise_cons.mp hp).2
    simp only [runningMaxAux, h1]
    rw [ih y h2 h3]

theorem foldl_max_zero (xs : List ℚ) :
    ∀ m : ℚ, m = 0 → (∀ x ∈ xs, x = 0) → xs.foldl max m = 0 := by
  induction xs with
  | nil => intro m hm _; simpa using hm
  | cons y ys ih =>
    intro m hm hall
    have hy : y = 0 := hall y (by simp)
    simp only [List.foldl_cons]
    exact ih (max m y) (by rw [hm, hy]; simp) (fun x hx => hall x (by simp [hx]))

/-- C8: `drawdown[t] = 1 - nav[t] / running_max(nav)[0..t]` (the running
maximum over the prefix `0..t`), `max_drawdown` is the maximum of the
drawdown series, the max drawdown of any monotonically non-decreasing
positive series is `0`, and `max_drawdown [100, 120, 90, 110] = 1 - 90/120
= 0.25`. -/
theorem drawdown_properties :
    (∀ (l : List ℚ) (t : ℕ), t < l.length →
      (drawdowns l).get? t = some (1 - l.getD t 0 / maxList (l.take (t + 1)))) ∧
    (∀ l : List ℚ, max_drawdown l = maxList (drawdowns l)) ∧
    (∀ l : List ℚ, l.Pairwise (· ≤ ·) → (∀ x ∈ l, 0 < x) → max_drawdown l = 0) ∧
    max_drawdown [100, 120, 90, 110] = 1 / 4 := by
  refine ⟨?_, fun l => rfl, ?_, ?_⟩
  · intro l t ht
    cases l with
    | nil => simp at ht
    | cons x xs =>
      cases t with
      | zero => simp [drawdowns, runningMax, maxList]
      | succ s =>
        have hs : s < xs.length := by simpa using ht
        have h := runningMaxAux_zip_get xs x s hs
        simpa [drawdowns, runningMax, maxList] using h
  · intro l hp hpos
    cases l with
    | nil => rfl
    | cons x xs =>
      have hrm : runningMax (x :: xs) = x :: xs := by
        simp only [runningMax]
        rw [runningMaxAux_of_le xs x ((List.pairwise_cons.mp hp).1)
          ((List.pairwise_cons.mp hp).2)]
      unfold max_drawdown
      rw [show drawdowns (x :: xs) =
          List.zipWith (fun v mx => 1 - v / mx) (x :: xs) (x :: xs) by
        rw [drawdowns, hrm]]
      have hz : ∀ ys : List ℚ, (∀ y ∈ ys, (0:ℚ) < y) →
          List.zipWith (fun v mx => 1 - v / mx) ys ys =
            List.replicate ys.length 0 := by
        intro ys
        induction ys with
        | nil => intro _; rfl
        | cons z zs ihz =>
          intro hys
          have hz0 : (0:ℚ) < z := hys z (by simp)
          simp only [List.zipWith_cons_cons, List.length_cons,
            List.replicate_succ]
          have h1 : (1 : ℚ) - z / z = 0 := by
            rw [div_self (ne_of_gt hz0)]; ring
          rw [h1, ihz (fun y hy => hys y (by simp [hy]))]
      rw [hz (x :: xs) hpos]
      simp only [List.length_cons, List.replicate_succ, maxList]
      exact foldl_max_zero _ _ (by simp) (fun y hy => by
        simpa using List.eq_of_mem_replicate hy)
  · norm_num [max_drawdown, drawdowns, runningMax, runningMaxAux, maxList]

/-- Witness for C8: drawdown at index 2 of `[100, 120, 90, 110]` is
`1 - 90/120`, and the max drawdown of the increasing series `[5, 7, 9]`
is `0`. -/
theorem drawdown_properties_witness :
    (drawdowns [100, 120, 90, 110]).get? 2 = some (1 - 90 / 120) ∧
    max_drawdown [5, 7, 9] = 0 := by
  constructor
  · have h := drawdown_properties.1 [100, 120, 90, 110] 2 (by norm_num)
    rw [h]
    norm_num [maxList]
  · exact drawdown_properties.2.2.1 [5, 7, 9]
      (by norm_num [List.pairwise_cons]) (by norm_num)

/-! ### C10 -/

/-- C10: on a Position holding a non-empty short inventory, `long` and
`close` fail with the direction `assert` before any mutation, returning the
Position exactly as it was (fund, fee, inventory and all logs unchanged);
symmetrically `short` and `cover` fail atomically on a non-empty long
inventory. -/
theorem direction_check_atomic (p : Position) (x price : ℚ) (ts : Option ℤ)
    (nts : String) :
    (p.inv.islong = false → p.inv.inventory ≠ [] →
      p.long x price ts nts = (.error .assertionError, p) ∧
      p.close x price ts nts = (.error .assertionError, p)) ∧
    (p.inv.islong = true → p.inv.inventory ≠ [] →
      p.short x price ts nts = (.error .assertionError, p) ∧
      p.cover x price ts nts = (.error .assertionError, p)) := by
  constructor
  · intro hdir hne
    have hlen : ¬ p.inv.inventory.length = 0 := by
      simpa [List.length_eq_zero] using hne
    constructor
    · by_cases hz : p.inv.get_amount = 0
      · simp [Position.long, Inventory.go_long, hz, hlen]
      · simp [Position.long, Inventory.long, hz, hdir]
    · simp [Position.close, Inventory.close, hdir]
  · intro hdir hne
    have hlen : ¬ p.inv.inventory.length = 0 := by
      simpa [List.length_eq_zero] using hne
    constructor
    · by_cases hz : p.inv.get_amount = 0
      · simp [Position.short, Inventory.go_short, hz, hlen]
      · simp [Position.short, Inventory.short, hz, hdir]
    · simp [Position.cover, Inventory.cover, hdir]

/-- Witness for C10: a Position short 5 units rejects `long` unchanged; a
Position long 5 units rejects `cover` unchanged. -/
theorem direction_check_atomic_witness :
    ({ fund := 1000, inv := ⟨[(5, 10)], false⟩ } : Position).long 3 10 none "" =
      (.error .assertionError,
        ({ fund := 1000, inv := ⟨[(5, 10)], false⟩ } : Position)) ∧
    ({ fund := 1000, inv := ⟨[(5, 10)], true⟩ } : Position).cover 3 10 none "" =
      (.error .assertionError,
        ({ fund := 1000, inv := ⟨[(5, 10)], true⟩ } : Position)) := by
  constructor
  · exact ((direction_check_atomic _ 3 10 none "").1 rfl (by simp)).1
  · exact ((direction_check_atomic _ 3 10 none "").2 rfl (by simp)).2

/-! ### Step lemmas for the trade primitives -/

theorem position_long_from_empty (p : Position) (x price : ℚ) (ts : Option ℤ)
    (nts : String) (b : Bool) (hinv : p.inv = ⟨[], b⟩) (hx : x ≠ 0)
    (hp : 0 < price) :
    p.long x price ts nts =
      (.ok (), { p with
        inv := ⟨[(|x|, price)], true⟩,
        fund := p.fund + -1 * (|x| * price),
        fee := p.fee + p.commision.calculate price |x|,
        trade_log := p.trade_log ++
          [⟨ts, |x|, p.commision.calculate price |x|, price, TradeKind.LONG,
            nts⟩] }) := by
  have habs : (0:ℚ) < |x| := abs_pos.mpr hx
  have hnn : (0:ℚ) ≤ |x| * price := mul_nonneg (abs_nonneg x) (le_of_lt hp)
  simp only [Position.long, hinv]
  norm_num [Inventory.get_amount, Inventory.go_long, Inventory.long,
    Inventory.entryQ, habs, hp, abs_of_nonneg hnn]

theorem position_short_from_empty (p : Position) (x price : ℚ) (ts : Option ℤ)
    (nts : String) (b : Bool) (hinv : p.inv = ⟨[], b⟩) (hx : x ≠ 0)
    (hp : 0 < price) :
    p.short x price ts nts =
      (.ok (), { p with
        inv := ⟨[(|x|, price)], false⟩,
        fund := p.fund + |x| * price,
        fee := p.fee + p.commision.calculate price |x|,
        trade_log := p.trade_log ++
          [⟨ts, -|x|, p.commision.calculate price |x|, price, TradeKind.SHORT,
            nts⟩] }) := by
  have habs : (0:ℚ) < |x| := abs_pos.mpr hx
  have hnn : (0:ℚ) ≤ |x| * price := mul_nonneg (abs_nonneg x) (le_of_lt hp)
  simp only [Position.short, hinv]
  norm_num [Inventory.get_amount, Inventory.go_short, Inventory.short,
    Inventory.entryQ, habs, hp, abs_of_nonneg hnn]

theorem position_close_full (p : Position) (sz ap price : ℚ) (ts : Option ℤ)
    (nts : String) (hinv : p.inv = ⟨[(sz, ap)], true⟩) (hsz : 0 < sz)
    (hp : 0 < price) :
    p.close sz price ts nts =
      (.ok (), { p with
        inv := ⟨[], true⟩,
        fund := p.fund + sz * price,
        fee := p.fee + p.commision.calculate price sz,
        trade_log := p.trade_log ++
          [⟨ts, -sz, p.commision.calculate price sz, price, TradeKind.CLOSE,
            nts⟩],
        trade_profit := p.trade_profit ++
          [⟨ts, sz, price, ap,
            sz * ((price - ap) / ap * 100) / 100 * p.base_rate * price,
            sz * ((price - ap) / ap * 100) / 100, (price - ap) / ap * 100,
            TradeKind.LONG⟩] }) := by
  have habs : |sz| = sz := abs_of_pos hsz
  have hnn : (0:ℚ) ≤ sz * price := mul_nonneg (le_of_lt hsz) (le_of_lt hp)
  have hclose : Inventory.close ⟨[(sz, ap)], true⟩ sz price =
      (.ok (some ⟨sz * ((price - ap) / ap * 100) / 100, (price - ap) / ap * 100,
        ap, sz * price⟩), ⟨[], true⟩) := by
    unfold Inventory.close Inventory.exitQ
    norm_num [habs, hsz, hp, Inventory.get_amount, Inventory.get_price,
      isclose_self]
  simp only [Position.close, habs, hinv, hclose]
  norm_num [abs_of_nonneg hnn, habs]

/-! ### C6 -/

/-- C6: from a flat Position (empty inventory, either direction flag),
`long(a, price)` then `close(a, price)` both succeed, restore `fund` to its
initial value, empty the inventory, increase `fee` by exactly
`commission(price, a)` on each of the two legs, record a realized profit of
`0` (for every `base_rate`), and change the net asset value at any
valuation price by exactly minus the fee paid on both legs. -/
theorem long_close_round_trip (p : Position) (a price : ℚ) (b : Bool)
    (ha : 0 < a) (hp : 0 < price) (hflat : p.inv = ⟨[], b⟩) :
    ((p.long a price none "").1 = .ok ()) ∧
    (((p.long a price none "").2.close a price none "").1 = .ok ()) ∧
    (((p.long a price none "").2.close a price none "").2.fund = p.fund) ∧
    (((p.long a price none "").2.close a price none "").2.inv = ⟨[], true⟩) ∧
    (((p.long a price none "").2.close a price none "").2.fee =
      p.fee + p.commision.calculate price a + p.commision.calculate price a) ∧
    (((p.long a price none "").2.close a price none "").2.trade_profit =
      p.trade_profit ++ [⟨none, a, price, price, 0, 0, 0, TradeKind.LONG⟩]) ∧
    (∀ q : ℚ, ((p.long a price none "").2.close a price none "").2.get_nav q -
        p.get_nav q =
      -(p.commision.calculate price a + p.commision.calculate price a)) := by
  have habs : |a| = a := abs_of_pos ha
  have h1 := position_long_from_empty p a price none "" b hflat (ne_of_gt ha) hp
  rw [habs] at h1
  rw [h1]
  dsimp only
  rw [position_close_full _ a price price none "" rfl ha hp]
  dsimp only
  refine ⟨rfl, rfl, by ring, rfl, rfl, ?_, ?_⟩
  · norm_num
  · intro q
    simp only [Position.get_nav, Position.get_gav, Position.cal_nav,
      Position.get_amount, hflat, Inventory.get_amount]
    norm_num
    ring

/-- Witness for C6: fund 10000, `long(2, 50)` then `close(2, 50)` restores
fund to 10000 with an empty inventory and fee `2 * commission(50, 2) = 0.2`. -/
theorem long_close_round_trip_witness :
    ((({ fund := 10000 } : Position).long 2 50 none "").2.close 2 50 none "").2.fund =
      10000 ∧
    ((({ fund := 10000 } : Position).long 2 50 none "").2.close 2 50 none "").2.inv =
      ⟨[], true⟩ ∧
    ((({ fund := 10000 } : Position).long 2 50 none "").2.close 2 50 none "").2.fee =
      1 / 5 := by
  have h := long_close_round_trip ({ fund := 10000 } : Position) 2 50 true
    (by norm_num) (by norm_num) rfl
  refine ⟨h.2.2.1, h.2.2.2.1, ?_⟩
  rw [h.2.2.2.2.1]
  norm_num [TradePercentage.calculate]

/-! ### C3 -/

/-- C3: for a Position holding a long lot (size `sz > 0`) with
`strategy_exposure > 0`, positive nav and any `new_exposure < 0`,
`allocate(new_exposure, price)` succeeds and executes exactly two trades in
order — first a CLOSE of the full currently held inventory amount `sz`, then
a SHORT of `nav * new_exposure / price` where
`nav = fund + amount * price` is computed from the state before the close
leg — and afterwards `strategy_exposure = new_exposure` and the inventory
holds the short lot `-(nav * new_exposure / price)` at `price`. -/
theorem allocate_pos_to_neg (p : Position) (new price sz ap : ℚ)
    (ts : Option ℤ) (nts : String) (hinv : p.inv = ⟨[(sz, ap)], true⟩)
    (hsz : 0 < sz) (hp : 0 < price) (hold : 0 < p.strategy_exposure)
    (hnew : new < 0) (hnav : 0 < Position.cal_nav p.fund sz price) :
    ((p.allocate new price ts nts).1 = .ok ()) ∧
    ((p.allocate new price ts nts).2.strategy_exposure = new) ∧
    ((p.allocate new price ts nts).2.trade_log = p.trade_log ++
      [⟨ts, -sz, p.commision.calculate price sz, price, TradeKind.CLOSE, nts⟩,
       ⟨ts, Position.cal_nav p.fund sz price * new / price,
        p.commision.calculate price
          (Position.cal_nav p.fund sz price * new / price),
        price, TradeKind.SHORT, nts⟩]) ∧
    ((p.allocate new price ts nts).2.inv =
      ⟨[(-(Position.cal_nav p.fund sz price * new / price), price)],
        false⟩) := by
  have hamt : p.inv.get_amount = sz := by
    rw [hinv]; simp [Inventory.get_amount]
  have hnotc : ¬ isclose p.strategy_exposure new :=
    not_isclose_of_pos_neg _ _ hold hnew
  have hnc0 : ¬ isclose new 0 := fun hc =>
    absurd ((isclose_zero_iff new).mp hc) (by linarith)
  have hxneg : Position.cal_nav p.fund sz price * new / price < 0 :=
    div_neg_of_neg_of_pos (mul_neg_of_pos_of_neg hnav hnew) hp
  have hxabs : |Position.cal_nav p.fund sz price * new / price| =
      -(Position.cal_nav p.fund sz price * new / price) := abs_of_neg hxneg
  simp only [Position.allocate, Position.allocateCore]
  rw [if_neg hnotc, hamt, if_pos hold, if_neg hnc0,
    if_neg (fun h => absurd h.1 (by linarith : ¬ (0:ℚ) < new)),
    if_neg (fun h => absurd h.1 (by linarith : ¬ (0:ℚ) < new)),
    if_pos hnew,
    position_close_full p sz ap price ts nts hinv hsz hp]
  dsimp only
  rw [position_short_from_empty _ (Position.cal_nav p.fund sz price * new / price)
    price ts nts true rfl (ne_of_lt hxneg) hp]
  dsimp only
  refine ⟨rfl, rfl, ?_, ?_⟩
  · rw [List.append_assoc]
    simp [hxabs, TradePercentage.calculate, abs_abs]
  · rw [hxabs]

/-- Witness for C3: fund 0, long lot `(10, 80)`, `strategy_exposure = 0.5`,
`allocate(-0.5, 100)`: nav is `0 + 10 * 100 = 1000`, so the close leg closes
the full 10 units and the short leg shorts `1000 * (-0.5) / 100 = -5`,
leaving a short lot of 5 at 100 and `strategy_exposure = -0.5`. -/
theorem allocate_pos_to_neg_witness :
    ((({ strategy_exposure := 1 / 2, inv := ⟨[(10, 80)], true⟩ } :
        Position).allocate (-(1 / 2)) 100 none "").1 = .ok ()) ∧
    ((({ strategy_exposure := 1 / 2, inv := ⟨[(10, 80)], true⟩ } :
        Position).allocate (-(1 / 2)) 100 none "").2.strategy_exposure =
      -(1 / 2)) ∧
    ((({ strategy_exposure := 1 / 2, inv := ⟨[(10, 80)], true⟩ } :
        Position).allocate (-(1 / 2)) 100 none "").2.inv =
      ⟨[(5, 100)], false⟩) := by
  have h := allocate_pos_to_neg
    ({ strategy_exposure := 1 / 2, inv := ⟨[(10, 80)], true⟩ } : Position)
    (-(1 / 2)) 100 10 80 none "" rfl (by norm_num) (by norm_num)
    (by norm_num) (by norm_num) (by norm_num [Position.cal_nav])
  refine ⟨h.1, h.2.1, ?_⟩
  rw [h.2.2.2]
  norm_num [Position.cal_nav]

/-! ### C7 -/

theorem allocate_ok_exposure_isclose (p : Position) (new price : ℚ)
    (ts : Option ℤ) (nts : String)
    (h : (p.allocate new price ts nts).1 = .ok ()) :
    isclose (p.allocate new price ts nts).2.strategy_exposure new := by
  by_cases h0 : isclose p.strategy_exposure new
  · unfold Position.allocate
    rw [if_pos h0]
    exact h0
  · unfold Position.allocate at h ⊢
    rw [if_neg h0] at h ⊢
    rcases hres : p.allocateCore new price ts nts with ⟨r, p1⟩
    rw [hres] at h
    cases r with
    | error e => exact Except.noConfusion h
    | ok u =>
      dsimp only
      exact isclose_self new

/-- C7: when a first call `allocate(new_exposure, price)` completes without
raising, an immediately repeated call with the same arguments is a no-op:
it returns the state of the first call completely unchanged (fund, fee,
inventory, `strategy_exposure` and all logs), because the first call left
`strategy_exposure = new_exposure`, which `math.isclose` accepts. -/
theorem allocate_idempotent (p : Position) (new price : ℚ) (ts : Option ℤ)
    (nts : String) (h : (p.allocate new price ts nts).1 = .ok ()) :
    (p.allocate new price ts nts).2.allocate new price ts nts =
      (.ok (), (p.allocate new price ts nts).2) :=
  allocate_noop_of_isclose _ new price ts nts
    (allocate_ok_exposure_isclose p new price ts nts h)

/-- Witness for C7: repeating `allocate(0.5, 100)` on the fund-10000 flat
Position returns the first call's state unchanged. -/
theorem allocate_idempotent_witness :
    ((({ fund := 10000 } : Position).allocate (1 / 2) 100 none "").2).allocate
        (1 / 2) 100 none "" =
      (.ok (), (({ fund := 10000 } : Position).allocate (1 / 2) 100 none "").2) :=
  allocate_idempotent _ (1 / 2) 100 none ""
    (by norm_num [Position.allocate, Position.allocateCore, Position.long,
      Position.cal_exposure, Position.cal_nav, Inventory.get_amount,
      Inventory.go_long, Inventory.long, Inventory.entryQ, Inventory.default,
      TradePercentage.calculate, isclose, rel_tol, abs_tol])


/-! ### C9 -/

theorem long_fee_commission (p : Position) (x price : ℚ) (ts : Option ℤ)
    (nts : String) (hc : 0 ≤ p.commision.percentage) (hp : 0 ≤ price) :
    p.fee ≤ (p.long x price ts nts).2.fee ∧
    (p.long x price ts nts).2.commision = p.commision := by
  have hnn : 0 ≤ TradePercentage.calculate p.commision price |x| :=
    mul_nonneg (mul_nonneg hp (abs_nonneg _)) hc
  simp only [Position.long]
  split
  · exact ⟨le_refl _, rfl⟩
  · split
    · exact ⟨le_refl _, rfl⟩
    · exact ⟨le_add_of_nonneg_right hnn, rfl⟩

theorem short_fee_commission (p : Position) (x price : ℚ) (ts : Option ℤ)
    (nts : String) (hc : 0 ≤ p.commision.percentage) (hp : 0 ≤ price) :
    p.fee ≤ (p.short x price ts nts).2.fee ∧
    (p.short x price ts nts).2.commision = p.commision := by
  have hnn : 0 ≤ TradePercentage.calculate p.commision price |x| :=
    mul_nonneg (mul_nonneg hp (abs_nonneg _)) hc
  simp only [Position.short]
  split
  · exact ⟨le_refl _, rfl⟩
  · split
    · exact ⟨le_refl _, rfl⟩
    · exact ⟨le_add_of_nonneg_right hnn, rfl⟩

theorem close_fee_commission (p : Position) (x price : ℚ) (ts : Option ℤ)
    (nts : String) (hc : 0 ≤ p.commision.percentage) (hp : 0 ≤ price) :
    p.fee ≤ (p.close x price ts nts).2.fee ∧
    (p.close x price ts nts).2.commision = p.commision := by
  have hnn : 0 ≤ TradePercentage.calculate p.commision price |x| :=
    mul_nonneg (mul_nonneg hp (abs_nonneg _)) hc
  simp only [Position.close]
  split
  · exact ⟨le_refl _, rfl⟩
  · exact ⟨le_refl _, rfl⟩
  · exact ⟨le_add_of_nonneg_right hnn, rfl⟩

theorem cover_fee_commission (p : Position) (x price : ℚ) (ts : Option ℤ)
    (nts : String) (hc : 0 ≤ p.commision.percentage) (hp : 0 ≤ price) :
    p.fee ≤ (p.cover x price ts nts).2.fee ∧
    (p.cover x price ts nts).2.commision = p.commision := by
  have hnn : 0 ≤ TradePercentage.calculate p.commision price |x| :=
    mul_nonneg (mul_nonneg hp (abs_nonneg _)) hc
  simp only [Position.cover]
  split
  · exact ⟨le_refl _, rfl⟩
  · exact ⟨le_refl _, rfl⟩
  · exact ⟨le_add_of_nonneg_right hnn, rfl⟩

theorem allocateCore_fee_mono (p : Position) (new price : ℚ) (ts : Option ℤ)
    (nts : String) (hc : 0 ≤ p.commision.percentage) (hp : 0 ≤ price) :
    p.fee ≤ (p.allocateCore new price ts nts).2.fee := by
  simp only [Position.allocateCore]
  split_ifs
  · exact (close_fee_commission p _ price ts nts hc hp).1
  · exact (long_fee_commission p _ price ts nts hc hp).1
  · exact (close_fee_commission p _ price ts nts hc hp).1
  · have hfc := close_fee_commission p p.inv.get_amount price ts nts hc hp
    split
    · rename_i e p1 heq
      rw [heq] at hfc
      exact hfc.1
    · rename_i u p1 heq
      rw [heq] at hfc
      have hsc := short_fee_commission p1
        (Position.cal_nav p.fund p.inv.get_amount price * new / price) price ts
        nts (by rw [hfc.2]; exact hc) hp
      exact le_trans hfc.1 hsc.1
  · exact le_refl _
  · exact (long_fee_commission p _ price ts nts hc hp).1
  · exact (short_fee_commission p _ price ts nts hc hp).1
  · exact le_refl _
  · exact (cover_fee_commission p _ price ts nts hc hp).1
  · exact (cover_fee_commission p _ price ts nts hc hp).1
  · exact (short_fee_commission p _ price ts nts hc hp).1
  · have hfc := cover_fee_commission p p.inv.get_amount price ts nts hc hp
    split
    · rename_i e p1 heq
      rw [heq] at hfc
      exact hfc.1
    · rename_i u p1 heq
      rw [heq] at hfc
      have hlc := long_fee_commission p1
        (Position.cal_nav p.fund p.inv.get_amount price * new / price) price ts
        nts (by rw [hfc.2]; exact hc) hp
      exact le_trans hfc.1 hlc.1
  · exact le_refl _
  · exact le_refl _

theorem allocate_fee_mono (p : Position) (new price : ℚ) (ts : Option ℤ)
    (nts : String) (hc : 0 ≤ p.commision.percentage) (hp : 0 ≤ price) :
    p.fee ≤ (p.allocate new price ts nts).2.fee := by
  unfold Position.allocate
  by_cases h0 : isclose p.strategy_exposure new
  · rw [if_pos h0]
  · rw [if_neg h0]
    have hcore := allocateCore_fee_mono p new price ts nts hc hp
    split
    · rename_i e p1 heq
      rw [heq] at hcore
      exact hcore
    · rename_i u p1 heq
      rw [heq] at hcore
      exact hcore

/-- C9: with a non-negative commission (`percentage ≥ 0`, `price ≥ 0`), the
cumulative `fee` never decreases across any of the four trade primitives or
`allocate` (including on their exception paths), and the operations outside
the four primitives and `extract_fund`/`deposit_fund` leave `fund` and `fee`
untouched: `end_date` and `update_base_rate` change neither, `extract_fund`
and `deposit_fund` change only `fund`, and `summary` is a pure read of the
state. -/
theorem fund_fee_mutation_discipline (p : Position) (x price r f : ℚ)
    (ts : Option ℤ) (nts : String)
    (hc : 0 ≤ p.commision.percentage) (hp : 0 ≤ price) :
    (p.fee ≤ (p.long x price ts nts).2.fee) ∧
    (p.fee ≤ (p.short x price ts nts).2.fee) ∧
    (p.fee ≤ (p.close x price ts nts).2.fee) ∧
    (p.fee ≤ (p.cover x price ts nts).2.fee) ∧
    (p.fee ≤ (p.allocate x price ts nts).2.fee) ∧
    ((p.end_date ts price).fund = p.fund ∧ (p.end_date ts price).fee = p.fee) ∧
    ((p.update_base_rate r).fund = p.fund ∧
      (p.update_base_rate r).fee = p.fee) ∧
    ((p.extract_fund).2.fee = p.fee) ∧
    ((p.deposit_fund f).fee = p.fee) ∧
    (p.summary = (p.fund, p.get_amount, p.strategy_exposure, p.fee,
      p.base_rate)) :=
  ⟨(long_fee_commission p x price ts nts hc hp).1,
   (short_fee_commission p x price ts nts hc hp).1,
   (close_fee_commission p x price ts nts hc hp).1,
   (cover_fee_commission p x price ts nts hc hp).1,
   allocate_fee_mono p x price ts nts hc hp,
   ⟨rfl, rfl⟩, ⟨rfl, rfl⟩, rfl, rfl, rfl⟩

/-- Witness for C9 on the fund-10000 default Position (commission rate
0.001 ≥ 0, price 100 ≥ 0). -/
theorem fund_fee_mutation_discipline_witness :
    (({ fund := 10000 } : Position).fee ≤
      (({ fund := 10000 } : Position).long 1 100 none "").2.fee) ∧
    ((({ fund := 10000 } : Position).end_date none 100).fund =
      ({ fund := 10000 } : Position).fund) ∧
    ((({ fund := 10000 } : Position).update_base_rate 2).fee =
      ({ fund := 10000 } : Position).fee) := by
  have h := fund_fee_mutation_discipline ({ fund := 10000 } : Position) 1 100 2
    50 none "" (by norm_num) (by norm_num)
  exact ⟨h.1, h.2.2.2.2.2.1.1, h.2.2.2.2.2.2.1.2⟩
